import Mathlib

/-!
Verification of the Sideko `sdk-generator` CLI against its specification.

Shallow embedding of the local SDK-update reconciliation flow
(`src/core/src/cmds/sdk/update.rs`), the config store
(`src/core/src/utils/config.rs`) and the path validators
(`src/core/src/utils/validators.rs`).  External effects (filesystem,
git subprocess, keyring, remote service) are represented by an explicit
`World` record describing what each external call would return; the
handler is a pure function from the world to a trace of effects plus a
result.
-/

namespace SdkGenerator

/-! ## Path validators — `src/core/src/utils/validators.rs` -/

/-- Observable facts about a CLI-supplied path, as queried by
`camino::Utf8PathBuf::{is_file, is_dir, exists}`. -/
structure PathInfo where
  isFile : Bool
  isDir : Bool
  pathExists : Bool
deriving DecidableEq

inductive PathKind where
  | file
  | dir
deriving DecidableEq

/-- `validate_path` (validators.rs:11-43): checks path kind and, unless
`allow_dne`, existence.  Returns `true` when the path is accepted. -/
def validate_path (path : PathInfo) (path_kind : PathKind) (allow_dne : Bool) : Bool :=
  match path_kind, allow_dne with
  | .file, false => path.isFile
  | .file, true => path.isFile || !path.pathExists
  | .dir, false => path.isDir
  | .dir, true => path.isDir || !path.pathExists

/-- `validate_file` (validators.rs:61-63). -/
def validate_file (arg : PathInfo) : Bool :=
  validate_path arg .file false

/-- `validate_dir` (validators.rs:74-76).  Note the source passes
`allow_dne = true` here, exactly as `validate_dir_allow_dne` does. -/
def validate_dir (arg : PathInfo) : Bool :=
  validate_path arg .dir true

/-- `validate_dir_allow_dne` (validators.rs:78-80). -/
def validate_dir_allow_dne (arg : PathInfo) : Bool :=
  validate_path arg .dir true

/-! ## Config store — `src/core/src/utils/config.rs` -/

inductive ConfigKey where
  | ConfigPath
  | ApiKey
  | ApiBaseUrl
deriving DecidableEq

/-- The `Display` impl of `ConfigKey` (config.rs:98-108), as the character
list of the fixed environment-variable name. -/
def ConfigKey.display : ConfigKey → List Char
  | .ApiKey => "SIDEKO_API_KEY".toList
  | .ApiBaseUrl => "SIDEKO_BASE_URL".toList
  | .ConfigPath => "SIDEKO_CONFIG_PATH".toList

/-- Outcome of one keyring lookup, as distinguished by `get_keyring`
(config.rs:20-41): entry found, `keyring::Error::NoEntry`, some other
`get_password` error, or failure to even initialize the entry. -/
inductive KeyringResult where
  | ok (v : String)
  | noEntry
  | otherError
  | initFailed
deriving DecidableEq

/-- `ConfigKey::get_keyring` (config.rs:20-41): every failure degrades to
`none`; only a found entry yields a value. -/
def get_keyring : KeyringResult → Option String
  | .ok v => some v
  | .noEntry => none
  | .otherError => none
  | .initFailed => none

/-- `get_api_key` (config.rs:121-132): environment variable first, then
keyring, else absent.  `envApiKey` is the value of `SIDEKO_API_KEY` in the
process environment (`ConfigKey::get_env`). -/
def get_api_key (envApiKey : Option String) (kr : KeyringResult) : Option String :=
  match envApiKey with
  | some env_key => some env_key
  | none =>
    match get_keyring kr with
    | some keyring_key => some keyring_key
    | none => none

/-- Modelled from the spec: shell-special characters of the external
`shlex` crate's quote routine (not part of src/) — any of these in the
input forces the quoted form. -/
def shlexSpecial (c : Char) : Bool :=
  c ∈ ['|', '&', ';', '<', '>', '(', ')', '$', '`', '\\', '"', '\'',
       ' ', '\t', '\r', '\n', '*', '?', '[', '#', '~', '=', '%']

/-- Modelled from the spec: the escaping step of `shlex` quoting — inside
double quotes, backslash and double quote are backslash-escaped; every
other character (newlines included) is kept literally. -/
def shlexEscape (cs : List Char) : List Char :=
  cs.flatMap fun c => if c = '\\' ∨ c = '"' then ['\\', c] else [c]

/-- Modelled from the spec: `shlex::try_quote` (external crate, not in
src/): `none` on a NUL byte, `"\x7b\x7d"`-style empty quoting for the empty
string, the escaped double-quoted form when a special character occurs,
and the input unchanged otherwise. -/
def try_quote (cs : List Char) : Option (List Char) :=
  if cs.contains (Char.ofNat 0) then none
  else if cs = [] then some ['"', '"']
  else if cs.any shlexSpecial then some ('"' :: (shlexEscape cs ++ ['"']))
  else some cs

/-- The `sh_safe` computation of `ConfigKey::set_env` (config.rs:46-48):
quote the value, falling back to the raw value when quoting fails. -/
def sh_safe (val : List Char) : List Char :=
  (try_quote val).getD val

/-- The `dotenv_entry` line of `ConfigKey::set_env` (config.rs:49). -/
def dotenv_entry (key : ConfigKey) (val : List Char) : List Char :=
  key.display ++ '=' :: sh_safe val

/-- The `KEY=`-detection used by `ConfigKey::set_env` (config.rs:64):
Rust `l.starts_with(&format!("\x7bself\x7d="))`. -/
def keyLine (key : ConfigKey) (l : List Char) : Bool :=
  (key.display ++ ['=']).isPrefixOf l

/-- The append-or-replace core of `ConfigKey::set_env` (config.rs:61-76),
acting on the parsed line list: every line starting with `KEY=` is mapped
to the fresh entry; when no line matched the entry is appended.  The
source's `replaced` flag set inside the `map` closure is equivalently the
`any` of the match predicate. -/
def set_env_lines (key : ConfigKey) (val : List Char) (curr_dotenv : List (List Char)) :
    List (List Char) :=
  let entry := dotenv_entry key val
  let new_dotenv := curr_dotenv.map fun l => if keyLine key l then entry else l
  if curr_dotenv.any (keyLine key ·) then new_dotenv else new_dotenv ++ [entry]

/-- The `curr_dotenv` read of `ConfigKey::set_env` (config.rs:51-59):
the parsed line list of the config file, empty when the file does not
exist (`none`); Rust `str::split("\n")` is `List.splitOn '\n'`. -/
def fileLines (file : Option (List Char)) : List (List Char) :=
  match file with
  | some dotenv_string => dotenv_string.splitOn '\n'
  | none => []

/-- `ConfigKey::set_env` (config.rs:45-86) at the file level: the file is
its character content (`none` = the config file does not exist); the
content is split on newline, transformed, and rejoined with newline
(Rust `Vec::join("\n")` = `List.intercalate ['\n']`). -/
def set_env (key : ConfigKey) (val : List Char) (file : Option (List Char)) : List Char :=
  ['\n'].intercalate (set_env_lines key val (fileLines file))

/-! ## SDK update flow — `src/core/src/cmds/sdk/update.rs` -/

/-- Captured output of one `std::process::Command::output()` call:
exit code plus captured stdout/stderr.  `exitCode = 0` models
`ExitStatus::success()`. -/
structure Output where
  exitCode : Int
  stdout : String
  stderr : String
deriving DecidableEq

/-- The three debug details with which `validate_sdk_id` reports the
single user-facing message "Could not determine SDK ID of the repository.
Is this a Sideko SDK?" (update.rs:87-106), each carrying the metadata
path named in the source's format string. -/
inductive SdkIdFailure where
  /-- update.rs:86-91 — `.sdk.json` is not an existing file. -/
  | metadataMissing (md_path : String)
  /-- update.rs:93-98 — `fs::read_to_string` failed. -/
  | metadataUnreadable (md_path : String)
  /-- update.rs:101-106 — `serde_json::from_str` failed. -/
  | metadataUndeserializable (md_path : String)
deriving DecidableEq

/-- The distinct `CliError` construction sites of the update flow, one
constructor per `return Err(...)` / `?` site, carrying the data the
source captures there. -/
inductive CliError where
  /-- update.rs:51-53 — `.git` absent or not a directory; carries the
  `.git` path named in the message. -/
  | notAGitRepo (git_dir : String)
  /-- update.rs:61-66 — spawning `git status --porcelain` failed
  ("Failed to check git status, is `git` installed?"). -/
  | gitUnavailable
  /-- update.rs:68-78 — non-empty `git status` stdout; carries the
  captured stdout and stderr. -/
  | dirtyWorkingTree (stdout stderr : String)
  /-- update.rs:87-106 — `.sdk.json` missing, unreadable or
  undeserializable. -/
  | unresolvableSdkId (detail : SdkIdFailure)
  /-- update.rs:114-119 — reading the config upload file failed. -/
  | configReadFailed
  /-- update.rs:122-123 — `TempDir::new()` failed. -/
  | tempDirFailed
  /-- update.rs:129-136 — creating/writing/finishing the tar.gz archive
  or re-reading it as an upload file failed. -/
  | archiveFailed
  /-- update.rs:142-151 — the remote update request returned an error. -/
  | remoteFailed
  /-- update.rs:167-168 — writing the patch file failed. -/
  | patchWriteFailed
  /-- update.rs:170-180 — spawning `git apply` failed
  ("Failed to run git patch, is `git` installed?"). -/
  | applyGitUnavailable
  /-- update.rs:188-196 — `git apply` exited non-zero; carries the
  captured stdout and stderr. -/
  | applyFailed (stdout stderr : String)
  /-- update.rs:184 — `fs::remove_file` on the patch file failed. -/
  | patchRemoveFailed
deriving DecidableEq

/-- What each external interaction of one `SdkUpdateCommand::handle` run
would return, fixed up front: the handler is then a pure function of this
record.  `Option` fields model fallible calls (`none` = the call errors). -/
structure World where
  /-- `self.repo` as a string. -/
  repo : String
  /-- `repo/.git` `is_dir() && exists()` (update.rs:50). -/
  gitDirIsDir : Bool
  /-- result of spawning `git status --porcelain` (update.rs:57-66);
  `none` models an io error invoking git. -/
  gitStatus : Option Output
  /-- `repo/.sdk.json` `is_file() && exists()` (update.rs:86). -/
  sdkJsonIsFile : Bool
  /-- `fs::read_to_string` on `.sdk.json` (update.rs:93). -/
  sdkJsonRead : Option String
  /-- `serde_json::from_str::<SdkMetadata>` (update.rs:101), returning
  the `id` field on success — external crate, modelled as an oracle. -/
  parseSdkJson : String → Option String
  /-- `UploadFile::from_path` on the config argument (update.rs:114). -/
  configUploadOk : Bool
  /-- `TempDir::new()` (update.rs:122). -/
  tempDirOk : Bool
  /-- the whole archive step: file create, tar append, gzip finish,
  flush and `UploadFile::from_path` re-read (update.rs:129-135). -/
  tarOk : Bool
  /-- body returned by the remote update endpoint (update.rs:142-151);
  `none` models a request error. -/
  remoteResponse : Option String
  /-- `fs::write` of the patch file (update.rs:167). -/
  patchWriteOk : Bool
  /-- result of spawning `git apply sdk_update.patch` (update.rs:170-180);
  `none` models an io error invoking git. -/
  gitApply : Option Output
  /-- `fs::remove_file` of the patch file (update.rs:184). -/
  removeOk : Bool

/-- `SdkUpdateCommand::validate_git_root` (update.rs:47-81): fails with
"Path is not the root of a git repository, ... not present" when `.git`
is absent or not a directory, with the git-unavailable message when the
`git status --porcelain` spawn errors, and with "Git working directory is
not clean..." (plus the captured stdout/stderr) when stdout is non-empty;
otherwise returns the `.git` path. -/
def validate_git_root (w : World) : Except CliError String :=
  let git_dir := w.repo ++ "/.git"
  if !w.gitDirIsDir then
    .error (.notAGitRepo git_dir)
  else
    match w.gitStatus with
    | none => .error .gitUnavailable
    | some status_output =>
      if status_output.stdout ≠ "" then
        .error (.dirtyWorkingTree status_output.stdout status_output.stderr)
      else
        .ok git_dir

/-- `SdkUpdateCommand::validate_sdk_id` (update.rs:84-108): reads
`repo/.sdk.json`, deserializes it and returns the `id` field, reporting
the three failure shapes as `unresolvableSdkId`. -/
def validate_sdk_id (w : World) : Except CliError String :=
  let md_path := w.repo ++ "/.sdk.json"
  if !w.sdkJsonIsFile then
    .error (.unresolvableSdkId (.metadataMissing md_path))
  else
    match w.sdkJsonRead with
    | none =>
      .error (.unresolvableSdkId (.metadataUnreadable md_path))
    | some md_str =>
      match w.parseSdkJson md_str with
      | none =>
        .error (.unresolvableSdkId (.metadataUndeserializable md_path))
      | some id => .ok id

/-- Externally visible steps of one `handle` run, in program order. -/
inductive Effect where
  /-- `TempDir::new()` succeeded (update.rs:122). -/
  | tempDirCreated
  /-- the `.git` tar.gz archive was fully built (update.rs:129-135). -/
  | tarArchiveBuilt
  /-- the remote update request was issued (update.rs:142-151). -/
  | remoteUpdateRequested
  /-- `warn!("No updates to apply")` was emitted (update.rs:160). -/
  | noUpdatesReported
  /-- the patch file was written at the repo root (update.rs:167). -/
  | patchFileWritten
  /-- `git apply` was invoked (update.rs:170-174). -/
  | gitApplyInvoked
  /-- the patch file was removed (update.rs:184). -/
  | patchFileDeleted
deriving DecidableEq

/-- Outcome of one `handle` run: the ordered effect trace, the returned
`CliResult<()>`, and whether the patch file `sdk_update.patch` exists at
the repo root once the run is over (it never exists beforehand). -/
structure RunResult where
  effects : List Effect
  result : Except CliError Unit
  patchFileOnDisk : Bool

/-- `SdkUpdateCommand::handle` (update.rs:110-198), as a pure function of
the world. -/
def handle (w : World) : RunResult :=
  match validate_git_root w with
  | .error e => ⟨[], .error e, false⟩
  | .ok _git_root =>
    match validate_sdk_id w with
    | .error e => ⟨[], .error e, false⟩
    | .ok _prev_sdk_id =>
      if !w.configUploadOk then ⟨[], .error .configReadFailed, false⟩
      else if !w.tempDirOk then ⟨[], .error .tempDirFailed, false⟩
      else if !w.tarOk then ⟨[.tempDirCreated], .error .archiveFailed, false⟩
      else
        match w.remoteResponse with
        | none =>
          ⟨[.tempDirCreated, .tarArchiveBuilt, .remoteUpdateRequested],
            .error .remoteFailed, false⟩
        | some patch_content =>
          if patch_content = "" then
            ⟨[.tempDirCreated, .tarArchiveBuilt, .remoteUpdateRequested, .noUpdatesReported],
              .ok (), false⟩
          else if !w.patchWriteOk then
            ⟨[.tempDirCreated, .tarArchiveBuilt, .remoteUpdateRequested],
              .error .patchWriteFailed, false⟩
          else
            match w.gitApply with
            | none =>
              ⟨[.tempDirCreated, .tarArchiveBuilt, .remoteUpdateRequested, .patchFileWritten],
                .error .applyGitUnavailable, true⟩
            | some patch_output =>
              if patch_output.exitCode = 0 then
                if w.removeOk then
                  ⟨[.tempDirCreated, .tarArchiveBuilt, .remoteUpdateRequested,
                      .patchFileWritten, .gitApplyInvoked, .patchFileDeleted],
                    .ok (), false⟩
                else
                  ⟨[.tempDirCreated, .tarArchiveBuilt, .remoteUpdateRequested,
                      .patchFileWritten, .gitApplyInvoked],
                    .error .patchRemoveFailed, true⟩
              else
                ⟨[.tempDirCreated, .tarArchiveBuilt, .remoteUpdateRequested,
                    .patchFileWritten, .gitApplyInvoked],
                  .error (.applyFailed patch_output.stdout patch_output.stderr), true⟩

/-! ## Theorems -/

/-- A fully healthy world, used as the base point for concrete runs:
clean repo, readable metadata whose parse yields `"abc123"`, successful
packaging, a non-empty remote patch, and a successful apply. -/
def baseWorld : World where
  repo := "/work/sdk"
  gitDirIsDir := true
  gitStatus := some ⟨0, "", ""⟩
  sdkJsonIsFile := true
  sdkJsonRead := some "good"
  parseSdkJson := fun s => if s = "good" then some "abc123" else none
  configUploadOk := true
  tempDirOk := true
  tarOk := true
  remoteResponse := some "patch"
  patchWriteOk := true
  gitApply := some ⟨0, "", ""⟩
  removeOk := true

/-- C5: `get_api_key` returns the environment value whenever the
`SIDEKO_API_KEY` environment variable is set, regardless of the keyring;
when it is unset, the keyring value if present; when neither is present,
`none`. -/
theorem get_api_key_precedence (envApiKey : Option String) (kr : KeyringResult) :
    (∀ v, envApiKey = some v → get_api_key envApiKey kr = some v) ∧
    (envApiKey = none → ∀ v, kr = .ok v → get_api_key envApiKey kr = some v) ∧
    (envApiKey = none → get_keyring kr = none → get_api_key envApiKey kr = none) := by
  refine ⟨fun v hv => ?_, fun he v hkr => ?_, fun he hkr => ?_⟩
  · subst hv; rfl
  · subst he; subst hkr; rfl
  · subst he; simp [get_api_key, hkr]

/-- Witness for C5 at concrete inputs: env wins over keyring, keyring is
used when env is unset, and both absent yields absent. -/
theorem get_api_key_precedence_witness :
    get_api_key (some "env-key") (.ok "keyring-key") = some "env-key" ∧
    get_api_key none (.ok "keyring-key") = some "keyring-key" ∧
    get_api_key none .noEntry = none :=
  ⟨(get_api_key_precedence (some "env-key") (.ok "keyring-key")).1 "env-key" rfl,
   (get_api_key_precedence none (.ok "keyring-key")).2.1 rfl "keyring-key" rfl,
   (get_api_key_precedence none .noEntry).2.2 rfl rfl⟩

/-- C7: contrary to the claim (and to `validate_dir`'s own doc comment
"Validates path exists and is a directory"), the repo-argument validator
accepts a path that does not exist: the source passes `allow_dne = true`,
making `validate_dir` identical to `validate_dir_allow_dne`. -/
theorem validate_dir_accepts_nonexistent_path :
    validate_dir ⟨false, false, false⟩ = true ∧
    (⟨false, false, false⟩ : PathInfo).pathExists = false ∧
    (⟨false, false, false⟩ : PathInfo).isDir = false ∧
    (∀ p : PathInfo, validate_dir p = validate_dir_allow_dne p) :=
  ⟨rfl, rfl, rfl, fun _ => rfl⟩

/-- C3: `validate_git_root` checks in order: a missing or non-directory
`.git` entry yields `notAGitRepo` (whatever the git invocation would
do); otherwise a failed git spawn yields `gitUnavailable`; otherwise a
non-empty `git status --porcelain` stdout yields `dirtyWorkingTree`
carrying the captured stdout and stderr; otherwise the `.git` path is
returned.  The embedding is a pure read-only probe: it returns a value
and touches no state. -/
theorem validate_git_root_cases (w : World) :
    (w.gitDirIsDir = false →
        validate_git_root w = .error (.notAGitRepo (w.repo ++ "/.git"))) ∧
    (w.gitDirIsDir = true → w.gitStatus = none →
        validate_git_root w = .error .gitUnavailable) ∧
    (∀ out : Output, w.gitDirIsDir = true → w.gitStatus = some out → out.stdout ≠ "" →
        validate_git_root w = .error (.dirtyWorkingTree out.stdout out.stderr)) ∧
    (∀ out : Output, w.gitDirIsDir = true → w.gitStatus = some out → out.stdout = "" →
        validate_git_root w = .ok (w.repo ++ "/.git")) := by
  refine ⟨fun h => ?_, fun h hs => ?_, fun out h hs hne => ?_, fun out h hs he => ?_⟩ <;>
    simp [validate_git_root, *]

/-- Witness for C3: the four cases of `validate_git_root` at concrete
worlds. -/
theorem validate_git_root_cases_witness :
    validate_git_root { baseWorld with gitDirIsDir := false } =
      .error (.notAGitRepo ("/work/sdk" ++ "/.git")) ∧
    validate_git_root { baseWorld with gitStatus := none } = .error .gitUnavailable ∧
    validate_git_root { baseWorld with gitStatus := some ⟨0, " M a.txt", "warn"⟩ } =
      .error (.dirtyWorkingTree " M a.txt" "warn") ∧
    validate_git_root baseWorld = .ok ("/work/sdk" ++ "/.git") :=
  ⟨(validate_git_root_cases _).1 rfl,
   (validate_git_root_cases _).2.1 rfl rfl,
   (validate_git_root_cases _).2.2.1 ⟨0, " M a.txt", "warn"⟩ rfl rfl (by decide),
   (validate_git_root_cases _).2.2.2 ⟨0, "", ""⟩ rfl rfl rfl⟩

/-- C9: `validate_sdk_id` reads `repo/.sdk.json` and returns its `id`
field; a missing file, an unreadable file, or content that does not
deserialize to a record with an `id` field each yield the
`unresolvableSdkId` error ("Could not determine SDK ID of the
repository").  The embedding is pure: the metadata file is only read,
never written. -/
theorem validate_sdk_id_cases (w : World) :
    (w.sdkJsonIsFile = false →
        validate_sdk_id w =
          .error (.unresolvableSdkId (.metadataMissing (w.repo ++ "/.sdk.json")))) ∧
    (w.sdkJsonIsFile = true → w.sdkJsonRead = none →
        validate_sdk_id w =
          .error (.unresolvableSdkId (.metadataUnreadable (w.repo ++ "/.sdk.json")))) ∧
    (∀ md_str, w.sdkJsonIsFile = true → w.sdkJsonRead = some md_str →
        w.parseSdkJson md_str = none →
        validate_sdk_id w =
          .error (.unresolvableSdkId (.metadataUndeserializable (w.repo ++ "/.sdk.json")))) ∧
    (∀ md_str id, w.sdkJsonIsFile = true → w.sdkJsonRead = some md_str →
        w.parseSdkJson md_str = some id →
        validate_sdk_id w = .ok id) := by
  refine ⟨fun h => ?_, fun h hr => ?_, fun md_str h hr hp => ?_,
    fun md_str id h hr hp => ?_⟩ <;>
    simp [validate_sdk_id, *]

/-- Witness for C9: the four cases of `validate_sdk_id` at concrete
worlds. -/
theorem validate_sdk_id_cases_witness :
    validate_sdk_id { baseWorld with sdkJsonIsFile := false } =
      .error (.unresolvableSdkId (.metadataMissing ("/work/sdk" ++ "/.sdk.json"))) ∧
    validate_sdk_id { baseWorld with sdkJsonRead := none } =
      .error (.unresolvableSdkId (.metadataUnreadable ("/work/sdk" ++ "/.sdk.json"))) ∧
    validate_sdk_id { baseWorld with sdkJsonRead := some "not json" } =
      .error (.unresolvableSdkId (.metadataUndeserializable ("/work/sdk" ++ "/.sdk.json"))) ∧
    validate_sdk_id baseWorld = .ok "abc123" :=
  ⟨(validate_sdk_id_cases _).1 rfl,
   (validate_sdk_id_cases _).2.1 rfl rfl,
   (validate_sdk_id_cases _).2.2.1 "not json" rfl rfl (by decide),
   (validate_sdk_id_cases _).2.2.2 "good" "abc123" rfl rfl (by decide)⟩

/-- Helper: once both validations pass and config read, temp dir and tar
all succeed, the effect trace starts with temp-dir creation, the archive
build, and the remote request, in that order, whatever happens later. -/
theorem effects_start_with_packaging (w : World) (g i : String)
    (hg : validate_git_root w = .ok g) (hi : validate_sdk_id w = .ok i)
    (hc : w.configUploadOk = true) (ht : w.tempDirOk = true) (ha : w.tarOk = true) :
    ∃ rest, (handle w).effects =
      .tempDirCreated :: .tarArchiveBuilt :: .remoteUpdateRequested :: rest := by
  unfold handle
  rw [hg, hi]
  simp only [hc, ht, ha, Bool.not_true, Bool.false_eq_true, if_false]
  rcases w.remoteResponse with _ | patch
  · exact ⟨[], rfl⟩
  · by_cases hp : patch = "" <;> simp only [hp, if_true, if_false]
    · exact ⟨[.noUpdatesReported], rfl⟩
    · by_cases hw : w.patchWriteOk <;> simp only [hw, Bool.not_true, Bool.not_false,
        Bool.false_eq_true, if_true, if_false]
      · rcases w.gitApply with _ | out
        · exact ⟨[.patchFileWritten], rfl⟩
        · by_cases he : out.exitCode = 0 <;> simp only [he, if_true, if_false]
          · by_cases hrm : w.removeOk <;> simp only [hrm, if_true, if_false]
            · exact ⟨[.patchFileWritten, .gitApplyInvoked, .patchFileDeleted], rfl⟩
            · exact ⟨[.patchFileWritten, .gitApplyInvoked], rfl⟩
          · exact ⟨[.patchFileWritten, .gitApplyInvoked], rfl⟩
      · exact ⟨[], rfl⟩

/-- C1: whenever repo validation fails — `.git` missing or not a
directory, git unavailable, dirty working tree, or missing, unreadable or
malformed `.sdk.json` metadata — `handle` terminates before any
packaging work: the effect trace is empty (no temp directory, no tar
archive, no remote request), no patch file exists afterwards, and the
validation error is returned. -/
theorem update_fails_fast (w : World) (e : CliError)
    (h : validate_git_root w = .error e ∨ validate_sdk_id w = .error e) :
    (handle w).effects = [] ∧ (handle w).patchFileOnDisk = false ∧
    ∃ e', (handle w).result = .error e' := by
  rcases h with h | h
  · simp [handle, h]
  · rcases hg : validate_git_root w with e' | g
    · simp [handle, hg]
    · simp [handle, hg, h]

/-- Witness for C1 at concrete worlds: a repo without `.git` and a repo
with a dirty working tree both produce an empty effect trace. -/
theorem update_fails_fast_witness :
    ((handle { baseWorld with gitDirIsDir := false }).effects = [] ∧
      (handle { baseWorld with gitDirIsDir := false }).patchFileOnDisk = false ∧
      ∃ e', (handle { baseWorld with gitDirIsDir := false }).result = .error e') ∧
    ((handle { baseWorld with sdkJsonIsFile := false }).effects = [] ∧
      (handle { baseWorld with sdkJsonIsFile := false }).patchFileOnDisk = false ∧
      ∃ e', (handle { baseWorld with sdkJsonIsFile := false }).result = .error e') :=
  ⟨update_fails_fast _ (.notAGitRepo ("/work/sdk" ++ "/.git")) (.inl rfl),
   update_fails_fast _ (.unresolvableSdkId (.metadataMissing ("/work/sdk" ++ "/.sdk.json")))
     (.inr rfl)⟩

/-- C4: when the remote update response body is empty, `handle` reports
"No updates to apply" and returns success; no patch file is written and
none exists afterwards. -/
theorem empty_response_no_updates (w : World) (g i : String)
    (hg : validate_git_root w = .ok g) (hi : validate_sdk_id w = .ok i)
    (hc : w.configUploadOk = true) (ht : w.tempDirOk = true) (ha : w.tarOk = true)
    (hr : w.remoteResponse = some "") :
    handle w =
      ⟨[.tempDirCreated, .tarArchiveBuilt, .remoteUpdateRequested, .noUpdatesReported],
        .ok (), false⟩ ∧
    .patchFileWritten ∉ (handle w).effects := by
  have hh : handle w =
      ⟨[.tempDirCreated, .tarArchiveBuilt, .remoteUpdateRequested, .noUpdatesReported],
        .ok (), false⟩ := by
    unfold handle
    rw [hg, hi, hr]
    simp [hc, ht, ha]
  exact ⟨hh, by rw [hh]; decide⟩

/-- Witness for C4: a concrete world whose remote response is empty. -/
theorem empty_response_no_updates_witness :
    handle { baseWorld with remoteResponse := some "" } =
      ⟨[.tempDirCreated, .tarArchiveBuilt, .remoteUpdateRequested, .noUpdatesReported],
        .ok (), false⟩ ∧
    .patchFileWritten ∉ (handle { baseWorld with remoteResponse := some "" }).effects :=
  empty_response_no_updates _ ("/work/sdk" ++ "/.git") "abc123" rfl rfl
    rfl rfl rfl rfl

/-- C10: the cleanliness check looks only at the stdout of
`git status --porcelain`, never at its exit status: when spawning git
succeeds and stdout is empty, `validate_git_root` accepts the repository
even though git exited non-zero, and — provided the remaining
validations and packaging succeed — the flow goes on to create the temp
directory, build the archive and issue the remote request. -/
theorem clean_check_ignores_exit_status (w : World) (out : Output) (i : String)
    (hdir : w.gitDirIsDir = true)
    (hst : w.gitStatus = some out)
    (hout : out.stdout = "")
    (_hexit : out.exitCode ≠ 0)
    (hi : validate_sdk_id w = .ok i)
    (hc : w.configUploadOk = true) (ht : w.tempDirOk = true) (ha : w.tarOk = true) :
    validate_git_root w = .ok (w.repo ++ "/.git") ∧
    .tempDirCreated ∈ (handle w).effects ∧
    .tarArchiveBuilt ∈ (handle w).effects ∧
    .remoteUpdateRequested ∈ (handle w).effects := by
  have hg : validate_git_root w = .ok (w.repo ++ "/.git") := by
    simp [validate_git_root, hdir, hst, hout]
  obtain ⟨rest, hrest⟩ :=
    effects_start_with_packaging w (w.repo ++ "/.git") i hg hi hc ht ha
  rw [hrest]
  exact ⟨hg, by simp, by simp, by simp⟩

/-- Witness for C10: with `git status --porcelain` exiting 1 with empty
stdout, the concrete run reaches packaging and the remote request. -/
theorem clean_check_ignores_exit_status_witness :
    validate_git_root { baseWorld with gitStatus := some ⟨1, "", "fatal"⟩ } =
      .ok ("/work/sdk" ++ "/.git") ∧
    .tempDirCreated ∈ (handle { baseWorld with gitStatus := some ⟨1, "", "fatal"⟩ }).effects ∧
    .tarArchiveBuilt ∈ (handle { baseWorld with gitStatus := some ⟨1, "", "fatal"⟩ }).effects ∧
    .remoteUpdateRequested ∈
      (handle { baseWorld with gitStatus := some ⟨1, "", "fatal"⟩ }).effects :=
  clean_check_ignores_exit_status _ ⟨1, "", "fatal"⟩ "abc123" rfl rfl rfl
    (by decide) rfl rfl rfl rfl

/-- C2 (amended): after a non-empty patch has been written, provided
`git apply` can be spawned and — when it succeeds — the deletion of the
patch file succeeds, the run ends in exactly one of two states: apply
exits zero, the patch file is deleted and success is reported; or apply
exits non-zero, the error carries the captured stdout and stderr and the
patch file is left on disk.  Under those provisos the patch file exists
after the run iff apply failed. -/
theorem patch_apply_dichotomy (w : World) (g i patch : String) (out : Output)
    (hg : validate_git_root w = .ok g) (hi : validate_sdk_id w = .ok i)
    (hc : w.configUploadOk = true) (ht : w.tempDirOk = true) (ha : w.tarOk = true)
    (hr : w.remoteResponse = some patch) (hp : patch ≠ "")
    (hw : w.patchWriteOk = true)
    (happ : w.gitApply = some out)
    (hrm : w.removeOk = true) :
    (out.exitCode = 0 →
      handle w =
        ⟨[.tempDirCreated, .tarArchiveBuilt, .remoteUpdateRequested, .patchFileWritten,
            .gitApplyInvoked, .patchFileDeleted], .ok (), false⟩) ∧
    (out.exitCode ≠ 0 →
      handle w =
        ⟨[.tempDirCreated, .tarArchiveBuilt, .remoteUpdateRequested, .patchFileWritten,
            .gitApplyInvoked], .error (.applyFailed out.stdout out.stderr), true⟩) ∧
    ((handle w).patchFileOnDisk = true ↔ out.exitCode ≠ 0) := by
  have base : ∀ r : RunResult,
      (if out.exitCode = 0 then
        (⟨[.tempDirCreated, .tarArchiveBuilt, .remoteUpdateRequested, .patchFileWritten,
            .gitApplyInvoked, .patchFileDeleted], .ok (), false⟩ : RunResult)
      else
        ⟨[.tempDirCreated, .tarArchiveBuilt, .remoteUpdateRequested, .patchFileWritten,
            .gitApplyInvoked], .error (.applyFailed out.stdout out.stderr), true⟩) = r →
      handle w = r := by
    intro r hrr
    rw [← hrr]
    unfold handle
    rw [hg, hi, hr, happ]
    simp [hc, ht, ha, hw, hp, hrm]
  by_cases he : out.exitCode = 0
  · have hh := base _ (if_pos he)
    refine ⟨fun _ => hh, fun hne => absurd he hne, ?_⟩
    rw [hh]
    simp [he]
  · have hh := base _ (if_neg he)
    refine ⟨fun h0 => absurd h0 he, fun _ => hh, ?_⟩
    rw [hh]
    simp [he]

/-- Counterexample to C2 as stated: in the one remaining case — apply
exits zero but removing the patch file fails (`fs::remove_file` error,
update.rs:184, propagated by `?`) — the patch file still exists after
the run even though apply succeeded, and an error, not success, is
reported; so "patch file exists after the run iff apply failed" does not
hold unconditionally. -/
theorem patch_apply_dichotomy_counterexample :
    ({ baseWorld with removeOk := false } : World).gitApply = some ⟨0, "", ""⟩ ∧
    (handle { baseWorld with removeOk := false }).patchFileOnDisk = true ∧
    (handle { baseWorld with removeOk := false }).result = .error .patchRemoveFailed :=
  ⟨rfl, rfl, rfl⟩

/-- Witness for C2 (amended): concrete runs for both the successful-apply
and the failed-apply endings. -/
theorem patch_apply_dichotomy_witness :
    handle baseWorld =
      ⟨[.tempDirCreated, .tarArchiveBuilt, .remoteUpdateRequested, .patchFileWritten,
          .gitApplyInvoked, .patchFileDeleted], .ok (), false⟩ ∧
    handle { baseWorld with gitApply := some ⟨1, "out", "err"⟩ } =
      ⟨[.tempDirCreated, .tarArchiveBuilt, .remoteUpdateRequested, .patchFileWritten,
          .gitApplyInvoked], .error (.applyFailed "out" "err"), true⟩ ∧
    ((handle { baseWorld with gitApply := some ⟨1, "out", "err"⟩ }).patchFileOnDisk = true ↔
      (⟨1, "out", "err"⟩ : Output).exitCode ≠ 0) :=
  ⟨(patch_apply_dichotomy baseWorld ("/work/sdk" ++ "/.git") "abc123" "patch"
      ⟨0, "", ""⟩ rfl rfl rfl rfl rfl rfl (by decide) rfl rfl rfl).1 rfl,
   (patch_apply_dichotomy { baseWorld with gitApply := some ⟨1, "out", "err"⟩ }
      ("/work/sdk" ++ "/.git") "abc123" "patch" ⟨1, "out", "err"⟩
      rfl rfl rfl rfl rfl rfl (by decide) rfl rfl rfl).2.1 (by decide),
   (patch_apply_dichotomy { baseWorld with gitApply := some ⟨1, "out", "err"⟩ }
      ("/work/sdk" ++ "/.git") "abc123" "patch" ⟨1, "out", "err"⟩
      rfl rfl rfl rfl rfl rfl (by decide) rfl rfl rfl).2.2⟩

/-! ### Config-file line structure -/

/-- No piece produced by `splitOnP p` contains an element satisfying
`p`. -/
theorem splitOnP_pieces_not_p {α : Type} (p : α → Bool) (xs : List α) :
    ∀ l ∈ xs.splitOnP p, ∀ a ∈ l, ¬ p a := by
  induction xs with
  | nil =>
    intro l hl
    simp only [List.splitOnP_nil, List.mem_singleton] at hl
    subst hl
    simp
  | cons x xs ih =>
    intro l hl
    rw [List.splitOnP_cons] at hl
    by_cases hx : p x
    · rw [if_pos hx] at hl
      rcases List.mem_cons.mp hl with rfl | hl
      · simp
      · exact ih l hl
    · rw [if_neg hx] at hl
      rcases hsp : xs.splitOnP p with _ | ⟨hd, tl⟩
      · exact absurd hsp (List.splitOnP_ne_nil p xs)
      · rw [hsp] at hl
        simp only [List.modifyHead] at hl
        rcases List.mem_cons.mp hl with rfl | hl
        · intro a ha
          rcases List.mem_cons.mp ha with rfl | ha
          · exact hx
          · exact ih hd (by rw [hsp]; exact List.mem_cons_self hd tl) a ha
        · exact ih l (by rw [hsp]; exact List.mem_cons_of_mem hd hl)

/-- No line produced by splitting on newline contains a newline. -/
theorem mem_splitOn_no_newline (xs : List Char) :
    ∀ l ∈ xs.splitOn '\n', '\n' ∉ l := by
  intro l hl hmem
  have := splitOnP_pieces_not_p (· == '\n') xs l hl '\n' hmem
  simp at this

/-- Lines read back from a config file never contain a newline. -/
theorem fileLines_no_newline (file : Option (List Char)) :
    ∀ l ∈ fileLines file, '\n' ∉ l := by
  rcases file with _ | content
  · simp [fileLines]
  · exact mem_splitOn_no_newline content

/-- The fixed environment-variable names contain no newline. -/
theorem display_no_newline (key : ConfigKey) : '\n' ∉ key.display := by
  cases key <;> decide

/-- When the shell-escaped value has no newline, the whole
`KEY=value` entry has none. -/
theorem dotenv_entry_no_newline (key : ConfigKey) (val : List Char)
    (hval : '\n' ∉ sh_safe val) : '\n' ∉ dotenv_entry key val := by
  intro hmem
  rcases List.mem_append.mp hmem with h | h
  · exact display_no_newline key h
  · rcases List.mem_cons.mp h with h | h
    · exact absurd h (by decide)
    · exact hval h

/-- The fresh entry written by `set_env` matches its own key's
`KEY=`-detection. -/
theorem keyLine_dotenv_entry (key : ConfigKey) (val : List Char) :
    keyLine key (dotenv_entry key val) = true := by
  rw [keyLine, List.isPrefixOf_iff_prefix]
  have h : dotenv_entry key val = (key.display ++ ['=']) ++ sh_safe val := by
    simp [dotenv_entry]
  rw [h]
  exact List.prefix_append _ _

/-- `set_env_lines` never returns an empty line list. -/
theorem set_env_lines_ne_nil (key : ConfigKey) (val : List Char)
    (curr : List (List Char)) : set_env_lines key val curr ≠ [] := by
  simp only [set_env_lines]
  split
  · rename_i hany
    rcases curr with _ | ⟨l, ls⟩
    · simp at hany
    · simp
  · simp

/-- When no current line matches the key, `set_env_lines` appends the
fresh entry and keeps every existing line unchanged. -/
theorem set_env_lines_of_no_match (key : ConfigKey) (val : List Char)
    (curr : List (List Char)) (h : ∀ l ∈ curr, keyLine key l = false) :
    set_env_lines key val curr = curr ++ [dotenv_entry key val] := by
  simp only [set_env_lines]
  have hany : curr.any (keyLine key ·) = false := by
    simp only [List.any_eq_false]
    intro l hl
    simp [h l hl]
  rw [hany]
  simp only [Bool.false_eq_true, if_false]
  congr 1
  have : ∀ l ∈ curr, (if keyLine key l then dotenv_entry key val else l) = l := by
    intro l hl
    rw [h l hl]
    simp
  rw [List.map_congr_left this, List.map_id']

/-- When some current line matches the key, `set_env_lines` is exactly
the map replacing every matching line with the fresh entry — nothing is
appended. -/
theorem set_env_lines_of_match (key : ConfigKey) (val : List Char)
    (curr : List (List Char)) (h : ∃ l ∈ curr, keyLine key l = true) :
    set_env_lines key val curr =
      curr.map (fun l => if keyLine key l then dotenv_entry key val else l) := by
  simp only [set_env_lines]
  have hany : curr.any (keyLine key ·) = true := by
    rw [List.any_eq_true]
    obtain ⟨l, hl, hkl⟩ := h
    exact ⟨l, hl, hkl⟩
  rw [hany]
  simp

/-- Every line of `set_env_lines` is newline-free, provided the current
lines and the escaped value are. -/
theorem set_env_lines_no_newline (key : ConfigKey) (val : List Char)
    (curr : List (List Char)) (hval : '\n' ∉ sh_safe val)
    (hcurr : ∀ l ∈ curr, '\n' ∉ l) :
    ∀ l ∈ set_env_lines key val curr, '\n' ∉ l := by
  have hentry := dotenv_entry_no_newline key val hval
  simp only [set_env_lines]
  split
  · intro l hl
    obtain ⟨x, hx, hfx⟩ := List.mem_map.mp hl
    by_cases hk : keyLine key x
    · rw [if_pos hk] at hfx
      rw [← hfx]
      exact hentry
    · rw [if_neg hk] at hfx
      rw [← hfx]
      exact hcurr x hx
  · intro l hl
    rcases List.mem_append.mp hl with hl | hl
    · obtain ⟨x, hx, hfx⟩ := List.mem_map.mp hl
      by_cases hk : keyLine key x
      · rw [if_pos hk] at hfx
        rw [← hfx]
        exact hentry
      · rw [if_neg hk] at hfx
        rw [← hfx]
        exact hcurr x hx
    · rw [List.mem_singleton.mp hl]
      exact hentry

/-- Reading back the file written by `set_env` recovers exactly the
transformed line list, provided the escaped value is newline-free. -/
theorem splitOn_set_env (key : ConfigKey) (val : List Char)
    (file : Option (List Char)) (hval : '\n' ∉ sh_safe val) :
    (set_env key val file).splitOn '\n' = set_env_lines key val (fileLines file) := by
  rw [set_env]
  exact List.splitOn_intercalate _ '\n'
    (set_env_lines_no_newline key val _ hval (fileLines_no_newline file))
    (set_env_lines_ne_nil key val _)

/-- C6 (amended): provided the shell-escaped value contains no newline —
so the stored entry is a single line — setting a key twice to the same
value, starting from a config file (possibly absent) with no line for
that key, leaves a file with exactly one line for that key, and that line
is the shell-escaped `KEY=value` entry. -/
theorem set_env_twice_one_line (key : ConfigKey) (val : List Char)
    (file : Option (List Char))
    (hval : '\n' ∉ sh_safe val)
    (hfile : ∀ l ∈ fileLines file, keyLine key l = false) :
    ((set_env key val (some (set_env key val file))).splitOn '\n').filter
        (keyLine key ·) = [dotenv_entry key val] := by
  have hentry := keyLine_dotenv_entry key val
  have h1 : set_env_lines key val (fileLines file) =
      fileLines file ++ [dotenv_entry key val] :=
    set_env_lines_of_no_match key val _ hfile
  have h2 : fileLines (some (set_env key val file)) =
      fileLines file ++ [dotenv_entry key val] := by
    show (set_env key val file).splitOn '\n' = _
    rw [splitOn_set_env key val file hval, h1]
  have h3 : set_env_lines key val (fileLines file ++ [dotenv_entry key val]) =
      fileLines file ++ [dotenv_entry key val] := by
    rw [set_env_lines_of_match key val _
      ⟨dotenv_entry key val, by simp, hentry⟩]
    rw [List.map_append]
    congr 1
    · have : ∀ l ∈ fileLines file,
          (if keyLine key l then dotenv_entry key val else l) = l := by
        intro l hl
        rw [hfile l hl]
        simp
      rw [List.map_congr_left this, List.map_id']
    · simp [hentry]
  rw [splitOn_set_env key val _ hval, h2, h3, List.filter_append]
  have hnil : (fileLines file).filter (keyLine key ·) = [] := by
    simp only [List.filter_eq_nil_iff]
    intro l hl
    simp [hfile l hl]
  rw [hnil]
  simp [hentry]

/-- Counterexample to C6 as stated: for the value `"a\nb"` the
shell-escaped entry itself spans two lines, so after two `set` calls the
single line matching `SIDEKO_API_KEY=` is the truncated first half of the
entry, not the shell-escaped value (and the file has grown a stray
line). -/
theorem set_env_twice_newline_counterexample :
    ((set_env .ApiKey "a\nb".toList
          (some (set_env .ApiKey "a\nb".toList none))).splitOn '\n').filter
        (keyLine .ApiKey ·) ≠ [dotenv_entry .ApiKey "a\nb".toList] := by
  decide

/-- Witness for C6 (amended) at a concrete key and value: two sets of
`SIDEKO_API_KEY` to `my-key` starting from a missing file leave exactly
the single line `SIDEKO_API_KEY=my-key`. -/
theorem set_env_twice_one_line_witness :
    ((set_env .ApiKey "my-key".toList
          (some (set_env .ApiKey "my-key".toList none))).splitOn '\n').filter
        (keyLine .ApiKey ·) = [dotenv_entry .ApiKey "my-key".toList] :=
  set_env_twice_one_line .ApiKey "my-key".toList none (by decide)
    (by intro l hl; simp [fileLines] at hl)

/-- C8 (amended): when at least one line of the config file matches the
key, `set_env` rewrites **every** matching line — those after the first
included — to the fresh entry, appends nothing, and leaves non-matching
lines unchanged: the rewritten file's lines are exactly the map of the
original lines sending each matching line to the entry. -/
theorem set_env_replaces_every_match (key : ConfigKey) (val : List Char)
    (content : List Char)
    (hval : '\n' ∉ sh_safe val)
    (hmatch : ∃ l ∈ content.splitOn '\n', keyLine key l = true) :
    (set_env key val (some content)).splitOn '\n' =
      (content.splitOn '\n').map
        (fun l => if keyLine key l then dotenv_entry key val else l) := by
  rw [splitOn_set_env key val _ hval]
  show set_env_lines key val (content.splitOn '\n') = _
  exact set_env_lines_of_match key val _ hmatch

/-- Counterexample to C8 as stated: with two `SIDEKO_API_KEY=` lines in
the file, the second matching line `SIDEKO_API_KEY=old2` does **not**
pass through unmodified — it is gone from the rewritten file. -/
theorem set_env_second_match_not_kept :
    "SIDEKO_API_KEY=old2".toList ∈
      ("SIDEKO_API_KEY=old1\nSIDEKO_API_KEY=old2".toList.splitOn '\n') ∧
    keyLine .ApiKey "SIDEKO_API_KEY=old2".toList = true ∧
    "SIDEKO_API_KEY=old2".toList ∉
      ((set_env .ApiKey "new".toList
          (some "SIDEKO_API_KEY=old1\nSIDEKO_API_KEY=old2".toList)).splitOn '\n') := by
  refine ⟨by decide, by decide, by decide⟩

/-- Witness for C8 (amended) at a concrete file with two matching lines
and one other line: both matches become the fresh entry, the other line
survives. -/
theorem set_env_replaces_every_match_witness :
    (set_env .ApiKey "new".toList
        (some "SIDEKO_API_KEY=old1\nOTHER=x\nSIDEKO_API_KEY=old2".toList)).splitOn '\n' =
      ("SIDEKO_API_KEY=old1\nOTHER=x\nSIDEKO_API_KEY=old2".toList.splitOn '\n').map
        (fun l => if keyLine .ApiKey l then dotenv_entry .ApiKey "new".toList else l) :=
  set_env_replaces_every_match .ApiKey "new".toList
    "SIDEKO_API_KEY=old1\nOTHER=x\nSIDEKO_API_KEY=old2".toList (by decide)
    (by decide)

end SdkGenerator
